import Mathlib

/-!
# Verification of the uptime interval meter (`utils/uptime/interval_meter.go`)

Shallow embedding of the `intervalMeter` component and of the spec-level
Network shutdown contract.

Modelling conventions:
* `time.Time` and `time.Duration` are modelled as `Int` nanoseconds
  (`time.Time`'s zero value is `0`; `t.After(u)` is `u < t`; `t.Sub(u)` is
  `t - u`; `t.Add(d)` is `t + d`).
* Go integer division on `time.Duration` truncates toward zero, which is
  `Int.tdiv`.
* `float64` arithmetic is modelled exactly over `Rat`.  All concrete traces
  used below involve only small dyadic rationals, on which `float64`
  arithmetic is exact, so the concrete evaluations are faithful to the Go
  program.
* `1 << uint(k)` is `2 ^ k` (in the reachable branch `0 ≤ k ≤ 32`, so the Go
  shift does not overflow).
-/

/-- State of `intervalMeter` (interval_meter.go, lines 14-23).
The `started` field exists in the Go struct but is never read or written by
the code in this file; it is carried along untouched. -/
structure IntervalMeter where
  running : Bool
  started : Int
  halflife : Int
  value : Rat
  nextHalvening : Int
  lastUpdated : Int
  deriving Repr, DecidableEq

/-- `maxSkippedIntervals = 32` (interval_meter.go, line 11). -/
def maxSkippedIntervals : Int := 32

/-- `NewIntervalMeter(halflife)` (interval_meter.go, lines 26-28): all fields
other than `halflife` take their Go zero values. -/
def NewIntervalMeter (halflife : Int) : IntervalMeter :=
  { running := false
    started := 0
    halflife := halflife
    value := 0
    nextHalvening := 0
    lastUpdated := 0 }

namespace IntervalMeter

/-- Lines 54-61 of `Read`: finish the current round.  If running, add
`(nextHalvening - lastUpdated)/halflife / 2` to `value`; advance
`lastUpdated` to `nextHalvening` and `nextHalvening` by one halflife; halve
`value`.  (The value update reads only pre-update timestamps, so the Go
statement order is immaterial.) -/
def settleStep (a : IntervalMeter) : IntervalMeter :=
  { a with
    value :=
      (if a.running then
        a.value + ((a.nextHalvening - a.lastUpdated : Int) : Rat) / ((a.halflife : Int) : Rat) / 2
      else a.value) / 2
    lastUpdated := a.nextHalvening
    nextHalvening := a.nextHalvening + a.halflife }

/-- Lines 80-89 of `Read`: skip `k` future rounds in closed form.
`factor = 1/2^k`; `value` is scaled by `factor`, increased by `1 - factor`
if running, then halved; both timestamps advance by `k * halflife`. -/
def skipStep (a : IntervalMeter) (k : Nat) : IntervalMeter :=
  { a with
    value :=
      (if a.running then
        a.value * (1 / (2 ^ k : Rat)) + (1 - 1 / (2 ^ k : Rat))
      else a.value * (1 / (2 ^ k : Rat))) / 2
    lastUpdated := a.lastUpdated + a.halflife * (k : Int)
    nextHalvening := a.nextHalvening + a.halflife * (k : Int) }

/-- Lines 66-77 of `Read`: the long-gap fast path.  `value` jumps to 1 if
running and 0 otherwise, `lastUpdated` becomes `currentTime` and
`nextHalvening` becomes `currentTime + halflife`. -/
def fastForward (a : IntervalMeter) (currentTime : Int) : IntervalMeter :=
  { a with
    value := if a.running then 1 else 0
    lastUpdated := currentTime
    nextHalvening := currentTime + a.halflife }

/-- Lines 93-98 of `Read`: increment the value for the current (partial)
round and advance `lastUpdated` to `currentTime`. -/
def accrue (a : IntervalMeter) (currentTime : Int) : IntervalMeter :=
  { a with
    value :=
      if a.running then
        a.value + ((currentTime - a.lastUpdated : Int) : Rat) / ((a.halflife : Int) : Rat) / 2
      else a.value
    lastUpdated := currentTime }

/-- `Read(currentTime)` (interval_meter.go, lines 48-99), as a state
transformer; the Go function's return value is the `value` field of the
result.  After `settleStep`, the code's `totalTime = currentTime.Sub(a.lastUpdated)`
equals `currentTime - a.nextHalvening` of the original state, and
`numSkippedPeriods = totalTime / a.halflife` with Go (truncating) division. -/
def read (a : IntervalMeter) (currentTime : Int) : IntervalMeter :=
  if currentTime ≤ a.lastUpdated then a
  else if a.nextHalvening < currentTime then
    if a.halflife < currentTime - a.nextHalvening then
      if maxSkippedIntervals < (currentTime - a.nextHalvening).tdiv a.halflife then
        fastForward (settleStep a) currentTime
      else
        accrue (skipStep (settleStep a) ((currentTime - a.nextHalvening).tdiv a.halflife).toNat)
          currentTime
    else accrue (settleStep a) currentTime
  else accrue a currentTime

/-- `Start(currentTime)` (interval_meter.go, lines 32-38). -/
def start (a : IntervalMeter) (currentTime : Int) : IntervalMeter :=
  if a.running then a
  else { a.read currentTime with running := true }

/-- `Stop(currentTime)` (interval_meter.go, lines 40-46). -/
def stop (a : IntervalMeter) (currentTime : Int) : IntervalMeter :=
  if a.running then { a.read currentTime with running := false }
  else a

end IntervalMeter

/-- One call on the meter's public interface. -/
inductive MeterOp where
  | start (t : Int)
  | stop (t : Int)
  | read (t : Int)
  deriving Repr, DecidableEq

/-- Apply one interface call to the meter state. -/
def applyOp (a : IntervalMeter) : MeterOp → IntervalMeter
  | MeterOp.start t => a.start t
  | MeterOp.stop t => a.stop t
  | MeterOp.read t => a.read t

/-- Apply a sequence of interface calls, oldest first. -/
def runOps (a : IntervalMeter) (ops : List MeterOp) : IntervalMeter :=
  ops.foldl applyOp a

/-! ## Field-projection simp lemmas for the `Read` building blocks -/

@[simp] lemma IntervalMeter.settleStep_running (a : IntervalMeter) :
    (a.settleStep).running = a.running := rfl

@[simp] lemma IntervalMeter.settleStep_halflife (a : IntervalMeter) :
    (a.settleStep).halflife = a.halflife := rfl

@[simp] lemma IntervalMeter.settleStep_lastUpdated (a : IntervalMeter) :
    (a.settleStep).lastUpdated = a.nextHalvening := rfl

@[simp] lemma IntervalMeter.settleStep_nextHalvening (a : IntervalMeter) :
    (a.settleStep).nextHalvening = a.nextHalvening + a.halflife := rfl

lemma IntervalMeter.settleStep_value (a : IntervalMeter) :
    (a.settleStep).value =
      (if a.running then
        a.value + ((a.nextHalvening - a.lastUpdated : Int) : Rat) / ((a.halflife : Int) : Rat) / 2
      else a.value) / 2 := rfl

@[simp] lemma IntervalMeter.skipStep_running (a : IntervalMeter) (k : Nat) :
    (a.skipStep k).running = a.running := rfl

@[simp] lemma IntervalMeter.skipStep_halflife (a : IntervalMeter) (k : Nat) :
    (a.skipStep k).halflife = a.halflife := rfl

@[simp] lemma IntervalMeter.skipStep_lastUpdated (a : IntervalMeter) (k : Nat) :
    (a.skipStep k).lastUpdated = a.lastUpdated + a.halflife * (k : Int) := rfl

@[simp] lemma IntervalMeter.skipStep_nextHalvening (a : IntervalMeter) (k : Nat) :
    (a.skipStep k).nextHalvening = a.nextHalvening + a.halflife * (k : Int) := rfl

lemma IntervalMeter.skipStep_value (a : IntervalMeter) (k : Nat) :
    (a.skipStep k).value =
      (if a.running then
        a.value * (1 / (2 ^ k : Rat)) + (1 - 1 / (2 ^ k : Rat))
      else a.value * (1 / (2 ^ k : Rat))) / 2 := rfl

@[simp] lemma IntervalMeter.fastForward_running (a : IntervalMeter) (t : Int) :
    (a.fastForward t).running = a.running := rfl

@[simp] lemma IntervalMeter.fastForward_halflife (a : IntervalMeter) (t : Int) :
    (a.fastForward t).halflife = a.halflife := rfl

@[simp] lemma IntervalMeter.fastForward_lastUpdated (a : IntervalMeter) (t : Int) :
    (a.fastForward t).lastUpdated = t := rfl

@[simp] lemma IntervalMeter.fastForward_nextHalvening (a : IntervalMeter) (t : Int) :
    (a.fastForward t).nextHalvening = t + a.halflife := rfl

@[simp] lemma IntervalMeter.fastForward_value (a : IntervalMeter) (t : Int) :
    (a.fastForward t).value = if a.running then 1 else 0 := rfl

@[simp] lemma IntervalMeter.accrue_running (a : IntervalMeter) (t : Int) :
    (a.accrue t).running = a.running := rfl

@[simp] lemma IntervalMeter.accrue_halflife (a : IntervalMeter) (t : Int) :
    (a.accrue t).halflife = a.halflife := rfl

@[simp] lemma IntervalMeter.accrue_lastUpdated (a : IntervalMeter) (t : Int) :
    (a.accrue t).lastUpdated = t := rfl

@[simp] lemma IntervalMeter.accrue_nextHalvening (a : IntervalMeter) (t : Int) :
    (a.accrue t).nextHalvening = a.nextHalvening := rfl

lemma IntervalMeter.accrue_value (a : IntervalMeter) (t : Int) :
    (a.accrue t).value =
      if a.running then
        a.value + ((t - a.lastUpdated : Int) : Rat) / ((a.halflife : Int) : Rat) / 2
      else a.value := rfl

/-! ## The state invariant

`MeterInv` is the inductive invariant maintained by `read`/`start`/`stop`
for a meter with positive halflife.  The quantity
`value + (nextHalvening - lastUpdated) / (2 * halflife)` is the largest
value the current round can reach; it stays at most `3/2` (it is at most
`5/4` except immediately after the long-gap fast path, which sets it to
exactly `3/2`). -/

/-- Invariant on meter states: nonnegative value, the round-capped value is
at most `3/2`, and `lastUpdated ≤ nextHalvening ≤ lastUpdated + halflife`. -/
def MeterInv (a : IntervalMeter) : Prop :=
  0 ≤ a.value ∧
  a.value + ((a.nextHalvening - a.lastUpdated : Int) : Rat) / (2 * ((a.halflife : Int) : Rat)) ≤ 3/2 ∧
  a.lastUpdated ≤ a.nextHalvening ∧
  a.nextHalvening - a.lastUpdated ≤ a.halflife

lemma meterInv_value_le (a : IntervalMeter) (hH : 0 < a.halflife) (hI : MeterInv a) :
    0 ≤ a.value ∧ a.value ≤ 3/2 := by
  obtain ⟨hv0, hJ, hLN, _⟩ := hI
  have hH' : (0 : Rat) < ((a.halflife : Int) : Rat) := by exact_mod_cast hH
  have hNL : (0 : Rat) ≤ ((a.nextHalvening - a.lastUpdated : Int) : Rat) := by
    exact_mod_cast sub_nonneg.mpr hLN
  have : (0 : Rat) ≤
      ((a.nextHalvening - a.lastUpdated : Int) : Rat) / (2 * ((a.halflife : Int) : Rat)) := by
    positivity
  exact ⟨hv0, by linarith⟩

lemma accrue_meterInv (a : IntervalMeter) (t : Int) (hH : 0 < a.halflife)
    (hI : MeterInv a) (h1 : a.lastUpdated ≤ t) (h2 : t ≤ a.nextHalvening) :
    MeterInv (a.accrue t) := by
  obtain ⟨hv0, hJ, hLN, hNLH⟩ := hI
  have hH' : (0 : Rat) < ((a.halflife : Int) : Rat) := by exact_mod_cast hH
  have htL : (0 : Rat) ≤ ((t - a.lastUpdated : Int) : Rat) := by
    exact_mod_cast sub_nonneg.mpr h1
  refine ⟨?_, ?_, ?_, ?_⟩
  · rw [IntervalMeter.accrue_value]
    split
    · have : (0 : Rat) ≤ ((t - a.lastUpdated : Int) : Rat) / ((a.halflife : Int) : Rat) / 2 := by
        positivity
      linarith
    · exact hv0
  · rw [IntervalMeter.accrue_value]
    simp only [IntervalMeter.accrue_lastUpdated, IntervalMeter.accrue_nextHalvening,
      IntervalMeter.accrue_halflife]
    split
    · have key : ((t - a.lastUpdated : Int) : Rat) / ((a.halflife : Int) : Rat) / 2 +
          ((a.nextHalvening - t : Int) : Rat) / (2 * ((a.halflife : Int) : Rat)) =
          ((a.nextHalvening - a.lastUpdated : Int) : Rat) /
            (2 * ((a.halflife : Int) : Rat)) := by
        push_cast
        field_simp
        ring
      linarith
    · have hmono : ((a.nextHalvening - t : Int) : Rat) ≤
          ((a.nextHalvening - a.lastUpdated : Int) : Rat) := by
        exact_mod_cast sub_le_sub_left h1 a.nextHalvening
      have hd : ((a.nextHalvening - t : Int) : Rat) / (2 * ((a.halflife : Int) : Rat)) ≤
          ((a.nextHalvening - a.lastUpdated : Int) : Rat) /
            (2 * ((a.halflife : Int) : Rat)) := by
        gcongr
      linarith
  · simp only [IntervalMeter.accrue_lastUpdated, IntervalMeter.accrue_nextHalvening]
    exact h2
  · simp only [IntervalMeter.accrue_lastUpdated, IntervalMeter.accrue_nextHalvening,
      IntervalMeter.accrue_halflife]
    omega

lemma settleStep_value_bounds (a : IntervalMeter) (hH : 0 < a.halflife)
    (hI : MeterInv a) : 0 ≤ (a.settleStep).value ∧ (a.settleStep).value ≤ 3/4 := by
  obtain ⟨hv0, hJ, hLN, hNLH⟩ := hI
  have hH' : (0 : Rat) < ((a.halflife : Int) : Rat) := by exact_mod_cast hH
  have hNL : (0 : Rat) ≤ ((a.nextHalvening - a.lastUpdated : Int) : Rat) := by
    exact_mod_cast sub_nonneg.mpr hLN
  have hdd : ((a.nextHalvening - a.lastUpdated : Int) : Rat) / ((a.halflife : Int) : Rat) / 2 =
      ((a.nextHalvening - a.lastUpdated : Int) : Rat) / (2 * ((a.halflife : Int) : Rat)) := by
    rw [div_div, mul_comm]
  rw [IntervalMeter.settleStep_value]
  split
  · constructor
    · have : (0 : Rat) ≤ ((a.nextHalvening - a.lastUpdated : Int) : Rat) /
          ((a.halflife : Int) : Rat) / 2 := by positivity
      linarith
    · rw [hdd]
      linarith
  · have hq : (0 : Rat) ≤ ((a.nextHalvening - a.lastUpdated : Int) : Rat) /
        (2 * ((a.halflife : Int) : Rat)) := by positivity
    constructor
    · linarith
    · linarith

lemma settleStep_meterInv (a : IntervalMeter) (hH : 0 < a.halflife)
    (hI : MeterInv a) : MeterInv (a.settleStep) := by
  obtain ⟨hb0, hb34⟩ := settleStep_value_bounds a hH hI
  have hH' : (0 : Rat) < ((a.halflife : Int) : Rat) := by exact_mod_cast hH
  refine ⟨hb0, ?_, ?_, ?_⟩
  · simp only [IntervalMeter.settleStep_lastUpdated, IntervalMeter.settleStep_nextHalvening,
      IntervalMeter.settleStep_halflife]
    have hgap : ((a.nextHalvening + a.halflife - a.nextHalvening : Int) : Rat) /
        (2 * ((a.halflife : Int) : Rat)) = 1/2 := by
      push_cast
      field_simp
      ring
    rw [hgap]
    linarith
  · simp only [IntervalMeter.settleStep_lastUpdated, IntervalMeter.settleStep_nextHalvening]
    omega
  · simp only [IntervalMeter.settleStep_lastUpdated, IntervalMeter.settleStep_nextHalvening,
      IntervalMeter.settleStep_halflife]
    omega

lemma skipStep_meterInv (a : IntervalMeter) (k : Nat) (hH : 0 < a.halflife)
    (hv0 : 0 ≤ a.value) (hv1 : a.value ≤ 1)
    (hgap : a.nextHalvening = a.lastUpdated + a.halflife) :
    MeterInv (a.skipStep k) := by
  have hH' : (0 : Rat) < ((a.halflife : Int) : Rat) := by exact_mod_cast hH
  have hf0 : (0 : Rat) < 1 / (2 ^ k : Rat) := by positivity
  have hf1 : 1 / (2 ^ k : Rat) ≤ 1 := by
    rw [div_le_one (by positivity)]
    exact one_le_pow₀ (by norm_num)
  have hmul0 : (0 : Rat) ≤ a.value * (1 / (2 ^ k : Rat)) := by positivity
  have hmul1 : a.value * (1 / (2 ^ k : Rat)) ≤ 1 / (2 ^ k : Rat) := by
    nlinarith
  have hval : 0 ≤ (a.skipStep k).value ∧ (a.skipStep k).value ≤ 1/2 := by
    rw [IntervalMeter.skipStep_value]
    split
    · constructor
      · nlinarith
      · nlinarith
    · constructor
      · nlinarith
      · nlinarith
  obtain ⟨hc0, hc12⟩ := hval
  refine ⟨hc0, ?_, ?_, ?_⟩
  · simp only [IntervalMeter.skipStep_lastUpdated, IntervalMeter.skipStep_nextHalvening,
      IntervalMeter.skipStep_halflife]
    have hg : ((a.nextHalvening + a.halflife * (k : Int) -
        (a.lastUpdated + a.halflife * (k : Int)) : Int) : Rat) /
        (2 * ((a.halflife : Int) : Rat)) = 1/2 := by
      rw [hgap]
      push_cast
      field_simp
      ring
    rw [hg]
    linarith
  · simp only [IntervalMeter.skipStep_lastUpdated, IntervalMeter.skipStep_nextHalvening]
    omega
  · simp only [IntervalMeter.skipStep_lastUpdated, IntervalMeter.skipStep_nextHalvening,
      IntervalMeter.skipStep_halflife]
    omega

lemma fastForward_meterInv (a : IntervalMeter) (t : Int) (hH : 0 < a.halflife) :
    MeterInv (a.fastForward t) := by
  have hH' : (0 : Rat) < ((a.halflife : Int) : Rat) := by exact_mod_cast hH
  refine ⟨?_, ?_, ?_, ?_⟩
  · rw [IntervalMeter.fastForward_value]
    split <;> norm_num
  · simp only [IntervalMeter.fastForward_value, IntervalMeter.fastForward_lastUpdated,
      IntervalMeter.fastForward_nextHalvening, IntervalMeter.fastForward_halflife]
    have hg : ((t + a.halflife - t : Int) : Rat) / (2 * ((a.halflife : Int) : Rat)) = 1/2 := by
      push_cast
      field_simp
      ring
    rw [hg]
    split <;> norm_num
  · simp only [IntervalMeter.fastForward_lastUpdated, IntervalMeter.fastForward_nextHalvening]
    omega
  · simp only [IntervalMeter.fastForward_lastUpdated, IntervalMeter.fastForward_nextHalvening,
      IntervalMeter.fastForward_halflife]
    omega

lemma read_meterInv (a : IntervalMeter) (t : Int) (hH : 0 < a.halflife)
    (hI : MeterInv a) : MeterInv (a.read t) := by
  obtain ⟨hv0, hJ, hLN, hNLH⟩ := hI
  unfold IntervalMeter.read
  split_ifs with h1 h2 h3 h4
  · exact ⟨hv0, hJ, hLN, hNLH⟩
  · exact fastForward_meterInv _ t hH
  · -- the closed-form skip branch followed by the partial round
    have hb : MeterInv a.settleStep := settleStep_meterInv a hH ⟨hv0, hJ, hLN, hNLH⟩
    obtain ⟨hb0, hb34⟩ := settleStep_value_bounds a hH ⟨hv0, hJ, hLN, hNLH⟩
    have hd0 : (0 : Int) < t - a.nextHalvening := by omega
    have hke : (t - a.nextHalvening).tdiv a.halflife = (t - a.nextHalvening) / a.halflife :=
      Int.tdiv_eq_ediv (by omega) (by omega)
    have htn : (((t - a.nextHalvening).tdiv a.halflife).toNat : Int) =
        (t - a.nextHalvening) / a.halflife := by
      rw [hke]
      exact Int.toNat_of_nonneg (Int.ediv_nonneg (by omega) (by omega))
    have hkH : ((t - a.nextHalvening) / a.halflife) * a.halflife ≤ t - a.nextHalvening :=
      Int.ediv_mul_le _ (by omega)
    have hdlt : t - a.nextHalvening < ((t - a.nextHalvening) / a.halflife + 1) * a.halflife :=
      Int.lt_ediv_add_one_mul_self _ hH
    have hc : MeterInv (a.settleStep.skipStep ((t - a.nextHalvening).tdiv a.halflife).toNat) := by
      refine skipStep_meterInv _ _ (by simpa using hH) hb0 (by linarith) ?_
      simp only [IntervalMeter.settleStep_lastUpdated, IntervalMeter.settleStep_nextHalvening,
        IntervalMeter.settleStep_halflife]
    refine accrue_meterInv _ t (by simpa using hH) hc ?_ ?_
    · simp only [IntervalMeter.skipStep_lastUpdated, IntervalMeter.settleStep_lastUpdated,
        IntervalMeter.settleStep_halflife, htn]
      have := hkH
      nlinarith [hkH]
    · simp only [IntervalMeter.skipStep_nextHalvening, IntervalMeter.settleStep_nextHalvening,
        IntervalMeter.settleStep_halflife, htn]
      nlinarith [hdlt]
  · -- settle then the partial round, no skipped periods
    have hb : MeterInv a.settleStep := settleStep_meterInv a hH ⟨hv0, hJ, hLN, hNLH⟩
    refine accrue_meterInv _ t (by simpa using hH) hb ?_ ?_
    · simp only [IntervalMeter.settleStep_lastUpdated]
      omega
    · simp only [IntervalMeter.settleStep_nextHalvening]
      omega
  · exact accrue_meterInv a t hH ⟨hv0, hJ, hLN, hNLH⟩ (by omega) (by omega)

lemma read_halflife (a : IntervalMeter) (t : Int) : (a.read t).halflife = a.halflife := by
  unfold IntervalMeter.read
  split_ifs <;> simp

lemma start_halflife (a : IntervalMeter) (t : Int) : (a.start t).halflife = a.halflife := by
  unfold IntervalMeter.start
  split_ifs
  · rfl
  · exact read_halflife a t

lemma stop_halflife (a : IntervalMeter) (t : Int) : (a.stop t).halflife = a.halflife := by
  unfold IntervalMeter.stop
  split_ifs
  · exact read_halflife a t
  · rfl

lemma applyOp_halflife (a : IntervalMeter) (op : MeterOp) :
    (applyOp a op).halflife = a.halflife := by
  cases op with
  | start t => exact start_halflife a t
  | stop t => exact stop_halflife a t
  | read t => exact read_halflife a t

lemma meterInv_running_update (a : IntervalMeter) (b : Bool) (hI : MeterInv a) :
    MeterInv { a with running := b } := hI

lemma start_meterInv (a : IntervalMeter) (t : Int) (hH : 0 < a.halflife)
    (hI : MeterInv a) : MeterInv (a.start t) := by
  unfold IntervalMeter.start
  split_ifs
  · exact hI
  · exact meterInv_running_update _ _ (read_meterInv a t hH hI)

lemma stop_meterInv (a : IntervalMeter) (t : Int) (hH : 0 < a.halflife)
    (hI : MeterInv a) : MeterInv (a.stop t) := by
  unfold IntervalMeter.stop
  split_ifs
  · exact meterInv_running_update _ _ (read_meterInv a t hH hI)
  · exact hI

lemma applyOp_meterInv (a : IntervalMeter) (op : MeterOp) (hH : 0 < a.halflife)
    (hI : MeterInv a) : MeterInv (applyOp a op) := by
  cases op with
  | start t => exact start_meterInv a t hH hI
  | stop t => exact stop_meterInv a t hH hI
  | read t => exact read_meterInv a t hH hI

lemma runOps_halflife (a : IntervalMeter) (ops : List MeterOp) :
    (runOps a ops).halflife = a.halflife := by
  induction ops generalizing a with
  | nil => rfl
  | cons op ops ih =>
      simpa [runOps, List.foldl_cons, applyOp_halflife] using
        (ih (applyOp a op)).trans (applyOp_halflife a op)

lemma runOps_meterInv (a : IntervalMeter) (ops : List MeterOp) (hH : 0 < a.halflife)
    (hI : MeterInv a) : MeterInv (runOps a ops) := by
  induction ops generalizing a with
  | nil => exact hI
  | cons op ops ih =>
      have h1 : 0 < (applyOp a op).halflife := by rw [applyOp_halflife]; exact hH
      exact ih (applyOp a op) h1 (applyOp_meterInv a op hH hI)

lemma newIntervalMeter_meterInv (halflife : Int) (hH : 0 < halflife) :
    MeterInv (NewIntervalMeter halflife) := by
  refine ⟨le_refl 0, ?_, le_refl 0, by simpa [NewIntervalMeter] using le_of_lt hH⟩
  simp [NewIntervalMeter]
  norm_num

/-! ## Claim C1 -/

/-- C1 (amended): for every meter created by `NewIntervalMeter` with a
positive halflife and every sequence of `start`/`stop`/`read` calls, the
meter's value lies within `[0, 3/2]` after every call, so every `read`
returns a value in `[0, 3/2]`.  The claimed bound `[0, 1]` is false on the
code (see the counterexample): after the long-gap fast path sets `value = 1`
on a running meter, the next partial-round accrual pushes the value above
`1`; `3/2` is the exact least upper bound. -/
theorem c1_value_bounded (halflife : Int) (ops : List MeterOp) (hH : 0 < halflife) :
    (0 ≤ (runOps (NewIntervalMeter halflife) ops).value ∧
      (runOps (NewIntervalMeter halflife) ops).value ≤ 3/2) ∧
    ∀ t : Int, 0 ≤ ((runOps (NewIntervalMeter halflife) ops).read t).value ∧
      ((runOps (NewIntervalMeter halflife) ops).read t).value ≤ 3/2 := by
  have hH0 : 0 < (NewIntervalMeter halflife).halflife := hH
  have hI := runOps_meterInv (NewIntervalMeter halflife) ops hH0
    (newIntervalMeter_meterInv halflife hH)
  have hhl : 0 < (runOps (NewIntervalMeter halflife) ops).halflife := by
    rw [runOps_halflife]
    exact hH0
  refine ⟨meterInv_value_le _ hhl hI, fun t => ?_⟩
  exact meterInv_value_le _ (by rw [read_halflife]; exact hhl) (read_meterInv _ t hhl hI)

/-- C1 does not hold as stated: for the meter with halflife 2 started at
time 0, a `Read` at time 200 takes the long-gap fast path (99 skipped
periods) and sets the value to 1; the next `Read` at time 201 accrues a
further quarter of a half-life of running time on top of it and returns
`5/4 > 1`.  (All intermediate `float64` values on this trace are small
dyadic rationals, so the Go program computes exactly these numbers.) -/
theorem c1_value_in_unit_interval_counterexample :
    ((((NewIntervalMeter 2).start 0).read 200).read 201).value = 5/4 ∧
    ¬ ((((NewIntervalMeter 2).start 0).read 200).read 201).value ≤ 1 := by
  constructor
  · norm_num [NewIntervalMeter, IntervalMeter.start, IntervalMeter.read,
      IntervalMeter.settleStep, IntervalMeter.skipStep, IntervalMeter.fastForward,
      IntervalMeter.accrue, maxSkippedIntervals, Int.tdiv]
  · norm_num [NewIntervalMeter, IntervalMeter.start, IntervalMeter.read,
      IntervalMeter.settleStep, IntervalMeter.skipStep, IntervalMeter.fastForward,
      IntervalMeter.accrue, maxSkippedIntervals, Int.tdiv]

/-- Witness for `c1_value_bounded` at a concrete halflife and call sequence. -/
theorem c1_value_bounded_witness :
    (0 ≤ (runOps (NewIntervalMeter 2) [MeterOp.start 0, MeterOp.read 3]).value ∧
      (runOps (NewIntervalMeter 2) [MeterOp.start 0, MeterOp.read 3]).value ≤ 3/2) ∧
    ∀ t : Int, 0 ≤ ((runOps (NewIntervalMeter 2) [MeterOp.start 0, MeterOp.read 3]).read t).value ∧
      ((runOps (NewIntervalMeter 2) [MeterOp.start 0, MeterOp.read 3]).read t).value ≤ 3/2 :=
  c1_value_bounded 2 [MeterOp.start 0, MeterOp.read 3] (by decide)

/-! ## Claim C7 -/

/-- C7 is false as stated: immediately after construction by
`NewIntervalMeter`, `nextHalvening` equals `lastUpdated` (both are the Go
zero time), so it is not strictly after it. -/
theorem c7_counterexample :
    (NewIntervalMeter 5).nextHalvening = (NewIntervalMeter 5).lastUpdated ∧
    ¬ (NewIntervalMeter 5).lastUpdated < (NewIntervalMeter 5).nextHalvening := by
  constructor
  · rfl
  · decide

/-- C7 (amended): for every meter with positive halflife, after construction
by `NewIntervalMeter` and after every `start`, `stop`, or `read` call,
`nextHalvening` is at least `lastUpdated` (non-strictly; equality occurs at
construction and after a `read` landing exactly on `nextHalvening`). -/
theorem c7_nextHalvening_not_before (halflife : Int) (ops : List MeterOp)
    (hH : 0 < halflife) :
    (runOps (NewIntervalMeter halflife) ops).lastUpdated ≤
      (runOps (NewIntervalMeter halflife) ops).nextHalvening :=
  (runOps_meterInv (NewIntervalMeter halflife) ops hH
    (newIntervalMeter_meterInv halflife hH)).2.2.1

/-- Witness for `c7_nextHalvening_not_before` at a concrete input. -/
theorem c7_nextHalvening_not_before_witness :
    (runOps (NewIntervalMeter 7) [MeterOp.start 1, MeterOp.read 9]).lastUpdated ≤
      (runOps (NewIntervalMeter 7) [MeterOp.start 1, MeterOp.read 9]).nextHalvening :=
  c7_nextHalvening_not_before 7 [MeterOp.start 1, MeterOp.read 9] (by decide)

/-! ## Claim C10 -/

lemma read_lastUpdated_le (a : IntervalMeter) (t : Int) :
    a.lastUpdated ≤ (a.read t).lastUpdated := by
  unfold IntervalMeter.read
  split_ifs with h1 h2 h3 h4 <;> simp <;> omega

lemma applyOp_lastUpdated_le (a : IntervalMeter) (op : MeterOp) :
    a.lastUpdated ≤ (applyOp a op).lastUpdated := by
  cases op with
  | start t =>
      show a.lastUpdated ≤ (a.start t).lastUpdated
      unfold IntervalMeter.start
      split_ifs
      · exact le_refl _
      · exact read_lastUpdated_le a t
  | stop t =>
      show a.lastUpdated ≤ (a.stop t).lastUpdated
      unfold IntervalMeter.stop
      split_ifs
      · exact read_lastUpdated_le a t
      · exact le_refl _
  | read t => exact read_lastUpdated_le a t

/-- C10: `lastUpdated` is monotonically non-decreasing across every single
`start`, `stop` or `read` call and across every sequence of such calls, even
when the `now` arguments are non-monotonic: no call moves `lastUpdated`
backwards. -/
theorem c10_lastUpdated_monotone (a : IntervalMeter) (op : MeterOp) (ops : List MeterOp) :
    a.lastUpdated ≤ (applyOp a op).lastUpdated ∧
    a.lastUpdated ≤ (runOps a ops).lastUpdated := by
  refine ⟨applyOp_lastUpdated_le a op, ?_⟩
  induction ops generalizing a with
  | nil => exact le_refl _
  | cons o os ih =>
      exact le_trans (applyOp_lastUpdated_le a o) (ih (applyOp a o))

/-! ## Claim C6 -/

lemma read_noop (a : IntervalMeter) (t : Int) (h : t ≤ a.lastUpdated) :
    a.read t = a := by
  unfold IntervalMeter.read
  rw [if_pos h]

lemma read_lastUpdated_eq (a : IntervalMeter) (t : Int) (h : a.lastUpdated < t) :
    (a.read t).lastUpdated = t := by
  unfold IntervalMeter.read
  split_ifs <;> first | omega | simp

/-- C6: if `now` is not after `lastUpdated` (including any `now` earlier than
`lastUpdated`), `read` returns the current value and leaves the whole state
unchanged — a silent no-op; and reading twice at the same `now` gives the
same state and value the second time with no further mutation. -/
theorem c6_monotonic_guard (a : IntervalMeter) (t u : Int) (hu : u ≤ a.lastUpdated) :
    a.read u = a ∧ (a.read u).value = a.value ∧ (a.read t).read t = a.read t := by
  refine ⟨read_noop a u hu, by rw [read_noop a u hu], ?_⟩
  by_cases ht : t ≤ a.lastUpdated
  · rw [read_noop a t ht]
    exact read_noop a t ht
  · exact read_noop (a.read t) t (le_of_eq (read_lastUpdated_eq a t (by omega)).symm)

/-- Witness for `c6_monotonic_guard` at a concrete meter and times. -/
theorem c6_monotonic_guard_witness :
    (NewIntervalMeter 4).read (-3) = NewIntervalMeter 4 ∧
    ((NewIntervalMeter 4).read (-3)).value = (NewIntervalMeter 4).value ∧
    ((NewIntervalMeter 4).read 11).read 11 = (NewIntervalMeter 4).read 11 :=
  c6_monotonic_guard (NewIntervalMeter 4) 11 (-3) (by decide)

/-! ## Claim C9 -/

/-- Whether an interface call is a `Start`. -/
def isStart : MeterOp → Bool
  | MeterOp.start _ => true
  | MeterOp.stop _ => false
  | MeterOp.read _ => false

lemma read_zero_value (a : IntervalMeter) (t : Int) (hr : a.running = false)
    (hv : a.value = 0) : (a.read t).value = 0 ∧ (a.read t).running = false := by
  unfold IntervalMeter.read
  split_ifs <;>
    simp [IntervalMeter.accrue_value, IntervalMeter.skipStep_value,
      IntervalMeter.settleStep_value, hr, hv]

lemma runOps_zero (a : IntervalMeter) (ops : List MeterOp) (hr : a.running = false)
    (hv : a.value = 0) (hops : ∀ op ∈ ops, isStart op = false) :
    (runOps a ops).value = 0 ∧ (runOps a ops).running = false := by
  induction ops generalizing a with
  | nil => exact ⟨hv, hr⟩
  | cons o os ih =>
      have ho := hops o (List.mem_cons_self o os)
      have hos : ∀ op ∈ os, isStart op = false := fun op hop => hops op (List.mem_cons_of_mem o hop)
      cases o with
      | start u => simp [isStart] at ho
      | stop u =>
          have hstop : a.stop u = a := by
            unfold IntervalMeter.stop
            simp [hr]
          show (runOps (a.stop u) os).value = 0 ∧ (runOps (a.stop u) os).running = false
          rw [hstop]
          exact ih a hr hv hos
      | read u =>
          obtain ⟨h1, h2⟩ := read_zero_value a u hr hv
          exact ih (a.read u) h2 h1 hos

/-- C9: for a meter on which `Start` has never been called, the value remains
exactly 0 and the meter stays not-running through every sequence of `read`
and `stop` calls, and every further `read` returns 0. -/
theorem c9_never_started (halflife : Int) (ops : List MeterOp)
    (hops : ∀ op ∈ ops, isStart op = false) :
    (runOps (NewIntervalMeter halflife) ops).value = 0 ∧
    (runOps (NewIntervalMeter halflife) ops).running = false ∧
    ∀ t : Int, ((runOps (NewIntervalMeter halflife) ops).read t).value = 0 := by
  obtain ⟨h1, h2⟩ := runOps_zero (NewIntervalMeter halflife) ops rfl rfl hops
  exact ⟨h1, h2, fun t => (read_zero_value _ t h2 h1).1⟩

/-- Witness for `c9_never_started` at a concrete call sequence. -/
theorem c9_never_started_witness :
    (runOps (NewIntervalMeter 3) [MeterOp.read 5, MeterOp.stop 6, MeterOp.read 100]).value = 0 ∧
    (runOps (NewIntervalMeter 3) [MeterOp.read 5, MeterOp.stop 6, MeterOp.read 100]).running = false ∧
    ∀ t : Int,
      ((runOps (NewIntervalMeter 3) [MeterOp.read 5, MeterOp.stop 6, MeterOp.read 100]).read t).value = 0 :=
  c9_never_started 3 [MeterOp.read 5, MeterOp.stop 6, MeterOp.read 100] (by decide)

/-! ## Claim C2 -/

/-- C2: whenever a `read` crosses the half-life boundary
(`now` after `nextHalvening`) and the number of whole half-life periods
skipped — `(now - nextHalvening)` divided by `halflife` with Go's truncating
division, as the code computes it after settling the current round — exceeds
the fixed ceiling `maxSkippedIntervals = 32`, `read` takes the fast path: the
result has value exactly 1 if the meter is running and exactly 0 if not,
`lastUpdated = now` and `nextHalvening = now + halflife`, with all other
fields unchanged. -/
theorem c2_fast_path (a : IntervalMeter) (t : Int) (hH : 0 < a.halflife)
    (hLN : a.lastUpdated ≤ a.nextHalvening) (hcross : a.nextHalvening < t)
    (hskip : maxSkippedIntervals < (t - a.nextHalvening).tdiv a.halflife) :
    a.read t = { a with
      value := if a.running then 1 else 0
      lastUpdated := t
      nextHalvening := t + a.halflife } ∧
    (a.read t).value = (if a.running then 1 else 0) := by
  have hke : (t - a.nextHalvening).tdiv a.halflife = (t - a.nextHalvening) / a.halflife :=
    Int.tdiv_eq_ediv (by omega) (by omega)
  have h33 : (33 : Int) ≤ (t - a.nextHalvening) / a.halflife := by
    rw [hke] at hskip
    simpa [maxSkippedIntervals] using hskip
  have hbig : 33 * a.halflife ≤ t - a.nextHalvening :=
    (Int.le_ediv_iff_mul_le hH).mp h33
  have hgap : a.halflife < t - a.nextHalvening := by nlinarith
  have heq : a.read t = (a.settleStep).fastForward t := by
    unfold IntervalMeter.read
    rw [if_neg (by omega), if_pos hcross, if_pos hgap, if_pos hskip]
  have hff : (a.settleStep).fastForward t = { a with
      value := if a.running then 1 else 0
      lastUpdated := t
      nextHalvening := t + a.halflife } := rfl
  rw [heq, hff]
  exact ⟨rfl, rfl⟩

/-- Witness for `c2_fast_path` at a concrete meter and time. -/
theorem c2_fast_path_witness :
    ({ running := true, started := 0, halflife := 1, value := 0,
       nextHalvening := 1, lastUpdated := 0 } : IntervalMeter).read 100 =
      { running := true, started := 0, halflife := 1,
        value := if true then 1 else 0, lastUpdated := 100, nextHalvening := 100 + 1 } ∧
    (({ running := true, started := 0, halflife := 1, value := 0,
        nextHalvening := 1, lastUpdated := 0 } : IntervalMeter).read 100).value =
      (if true then 1 else 0) := by
  have h := c2_fast_path
    { running := true, started := 0, halflife := 1, value := 0,
      nextHalvening := 1, lastUpdated := 0 } 100
    (by decide) (by decide) (by decide) (by decide)
  exact h

/-! ## Claim C5 -/

/-- C5: with `halflife = 1s` (`1000000000` ns), a fresh meter started at
`t = 0` reads `0.5` at `t = 1s` while running; after a `Stop` at `t = 1s`, a
read at `t = 2s` yields `0.25`. -/
theorem c5_scenario :
    (((NewIntervalMeter 1000000000).start 0).read 1000000000).value = 1/2 ∧
    (((((NewIntervalMeter 1000000000).start 0).read 1000000000).stop
      1000000000).read 2000000000).value = 1/4 := by
  constructor
  · norm_num [NewIntervalMeter, IntervalMeter.start, IntervalMeter.read,
      IntervalMeter.settleStep, IntervalMeter.accrue, maxSkippedIntervals]
  · norm_num [NewIntervalMeter, IntervalMeter.start, IntervalMeter.stop, IntervalMeter.read,
      IntervalMeter.settleStep, IntervalMeter.accrue, maxSkippedIntervals]

/-! ## Claim C4 -/

/-- C4 (amended): for a running meter settled at time `t`
(`lastUpdated = t`, `nextHalvening = t + d` with `0 ≤ d ≤ halflife`), the
value read at exactly `t + halflife` is `(v + 1)/2 - d/(4*halflife)` when
`d < halflife`, and `v + 1/2` when `d = halflife`.  It therefore approaches
`(v + 1)/2` only in the limit `d → 0` (exactly `(v+1)/2` at `d = 0`); at the
canonical settled state `d = halflife` the returned value is `v + 1/2`, not
`(v + 1)/2` (see the counterexample). -/
theorem c4_half_life_characterization (a : IntervalMeter) (t d : Int)
    (hH : 0 < a.halflife) (hrun : a.running = true)
    (hL : a.lastUpdated = t) (hN : a.nextHalvening = t + d)
    (hd0 : 0 ≤ d) (hdH : d ≤ a.halflife) :
    (a.read (t + a.halflife)).value =
      if d = a.halflife then a.value + 1/2
      else (a.value + 1)/2 - (d : Rat)/(4 * ((a.halflife : Int) : Rat)) := by
  have hH' : (0 : Rat) < ((a.halflife : Int) : Rat) := by exact_mod_cast hH
  have hnoop : ¬ (t + a.halflife ≤ a.lastUpdated) := by omega
  by_cases hd : d = a.halflife
  · have hcross : ¬ (a.nextHalvening < t + a.halflife) := by omega
    unfold IntervalMeter.read
    rw [if_neg hnoop, if_neg hcross, if_pos hd]
    rw [IntervalMeter.accrue_value, if_pos hrun, hL]
    have harg : (t + a.halflife - t : Int) = a.halflife := by ring
    rw [harg]
    field_simp
  · have hcross : a.nextHalvening < t + a.halflife := by omega
    have hnoskip : ¬ (a.halflife < t + a.halflife - a.nextHalvening) := by omega
    unfold IntervalMeter.read
    rw [if_neg hnoop, if_pos hcross, if_neg hnoskip, if_neg hd]
    rw [IntervalMeter.accrue_value]
    simp only [IntervalMeter.settleStep_running, IntervalMeter.settleStep_lastUpdated,
      IntervalMeter.settleStep_halflife, if_pos hrun]
    rw [IntervalMeter.settleStep_value, if_pos hrun, hL, hN]
    have h1 : (t + d - t : Int) = d := by ring
    have h2 : (t + a.halflife - (t + d) : Int) = a.halflife - d := by ring
    rw [h1, h2]
    push_cast
    field_simp
    ring

/-- C4 does not hold as stated: from the canonical settled state
(`value = 1/2`, `lastUpdated = 0`, `nextHalvening = halflife = 4`, running),
reading exactly one half-life later returns `1`, not
`(1/2 + 1)/2 = 3/4` — the deviation `v/2` does not vanish. -/
theorem c4_counterexample :
    (({ running := true, started := 0, halflife := 4, value := 1/2,
        nextHalvening := 4, lastUpdated := 0 } : IntervalMeter).read 4).value = 1 ∧
    (({ running := true, started := 0, halflife := 4, value := 1/2,
        nextHalvening := 4, lastUpdated := 0 } : IntervalMeter).read 4).value ≠
      ((1/2 : Rat) + 1)/2 := by
  constructor
  · norm_num [IntervalMeter.read, IntervalMeter.settleStep, IntervalMeter.accrue,
      maxSkippedIntervals]
  · norm_num [IntervalMeter.read, IntervalMeter.settleStep, IntervalMeter.accrue,
      maxSkippedIntervals]

/-- Witness for `c4_half_life_characterization` at a concrete meter. -/
theorem c4_half_life_characterization_witness :
    (({ running := true, started := 0, halflife := 4, value := 0,
        nextHalvening := 2, lastUpdated := 0 } : IntervalMeter).read (0 + 4)).value =
      if (2 : Int) = (4 : Int) then (0 : Rat) + 1/2
      else ((0 : Rat) + 1)/2 - ((2 : Int) : Rat)/(4 * (((4 : Int) : Int) : Rat)) :=
  c4_half_life_characterization
    { running := true, started := 0, halflife := 4, value := 0,
      nextHalvening := 2, lastUpdated := 0 } 0 2
    (by decide) (by decide) (by decide) (by decide) (by decide) (by decide)


/-! ## Claim C3 -/

lemma settleStep_iterate (a : IntervalMeter) (hH : a.halflife ≠ 0)
    (hgap : a.nextHalvening = a.lastUpdated + a.halflife) (k : Nat) :
    IntervalMeter.settleStep^[k] a =
      { a with
        value := a.value / 2 ^ k +
          (if a.running then (1 - 1 / (2 ^ k : Rat)) / 2 else 0)
        lastUpdated := a.lastUpdated + a.halflife * (k : Int)
        nextHalvening := a.nextHalvening + a.halflife * (k : Int) } := by
  have hH' : ((a.halflife : Int) : Rat) ≠ 0 := by exact_mod_cast hH
  induction k with
  | zero =>
      simp only [Function.iterate_zero, id_eq]
      obtain ⟨r, s, h, v, N, L⟩ := a
      simp only [IntervalMeter.mk.injEq]
      refine ⟨by trivial, by trivial, by trivial, ?_, by push_cast; ring, by push_cast; ring⟩
      cases r <;> norm_num
  | succ n ih =>
      rw [Function.iterate_succ_apply', ih]
      obtain ⟨r, s, h, v, N, L⟩ := a
      simp only at hgap hH' ⊢
      simp only [IntervalMeter.settleStep, IntervalMeter.mk.injEq]
      have harg : (N + h * (n : Int) - (L + h * (n : Int)) : Int) = h := by
        rw [hgap]; ring
      refine ⟨by trivial, by trivial, by trivial, ?_, ?_, ?_⟩
      · rw [harg]
        cases r
        · simp only [Bool.false_eq_true, if_false]
          ring
        · simp only [if_true]
          field_simp
          ring
      · push_cast
        ring
      · rw [hgap]
        push_cast
        ring

/-- C3 does not hold as stated: on the (reachable) post-settle state with
`value = 1/2`, `halflife = 2`, `lastUpdated = 0`, `nextHalvening = 2`, not
running, skipping `k = 1` period with the closed-form branch yields value
`1/8`, while one application of the single-period settle step yields `1/4`;
the closed form halves the prior value once more than the iteration does. -/
theorem c3_counterexample :
    (({ running := false, started := 0, halflife := 2, value := 1/2,
        nextHalvening := 2, lastUpdated := 0 } : IntervalMeter).skipStep 1).value = 1/8 ∧
    (IntervalMeter.settleStep^[1]
      ({ running := false, started := 0, halflife := 2, value := 1/2,
         nextHalvening := 2, lastUpdated := 0 } : IntervalMeter)).value = 1/4 ∧
    ({ running := false, started := 0, halflife := 2, value := 1/2,
       nextHalvening := 2, lastUpdated := 0 } : IntervalMeter).skipStep 1 ≠
      IntervalMeter.settleStep^[1]
        ({ running := false, started := 0, halflife := 2, value := 1/2,
           nextHalvening := 2, lastUpdated := 0 } : IntervalMeter) := by
  have h1 : (({ running := false, started := 0, halflife := 2, value := 1/2,
                nextHalvening := 2, lastUpdated := 0 } : IntervalMeter).skipStep 1).value
      = 1/8 := by
    norm_num [IntervalMeter.skipStep]
  have h2 : (IntervalMeter.settleStep^[1]
      ({ running := false, started := 0, halflife := 2, value := 1/2,
         nextHalvening := 2, lastUpdated := 0 } : IntervalMeter)).value = 1/4 := by
    norm_num [Function.iterate_one, IntervalMeter.settleStep]
  refine ⟨h1, h2, fun heq => ?_⟩
  have hv := congrArg IntervalMeter.value heq
  rw [h1, h2] at hv
  norm_num at hv

/-- C3 (amended): in the states where the skip branch runs
(`nextHalvening = lastUpdated + halflife`, positive halflife), the
closed-form branch with `k` skipped periods advances `lastUpdated` and
`nextHalvening` exactly as `k` applications of the single-period settle step
do, but its value equals that of the `k` iterations applied to the meter
with its value first halved once more: the running contribution matches the
iteration exactly, while the prior value is decayed by `2^(k+1)` instead of
the iteration's `2^k`. -/
theorem c3_skip_vs_iterated_settle (a : IntervalMeter) (k : Nat)
    (hH : 0 < a.halflife) (hgap : a.nextHalvening = a.lastUpdated + a.halflife) :
    a.skipStep k = IntervalMeter.settleStep^[k] { a with value := a.value / 2 } ∧
    (a.skipStep k).lastUpdated = (IntervalMeter.settleStep^[k] a).lastUpdated ∧
    (a.skipStep k).nextHalvening = (IntervalMeter.settleStep^[k] a).nextHalvening := by
  have hHne : a.halflife ≠ 0 := by omega
  have hit := settleStep_iterate a hHne hgap k
  have hit2 := settleStep_iterate { a with value := a.value / 2 }
    (by simpa using hHne) (by simpa using hgap) k
  refine ⟨?_, ?_, ?_⟩
  · rw [hit2]
    obtain ⟨r, s, h, v, N, L⟩ := a
    simp only [IntervalMeter.skipStep, IntervalMeter.mk.injEq]
    have h2k : (2 ^ k : Rat) ≠ 0 := by positivity
    refine ⟨by trivial, by trivial, by trivial, ?_, by trivial, by trivial⟩
    cases r
    · simp only [Bool.false_eq_true, if_false, add_zero]
      rw [mul_one_div, div_div, div_div]
      ring
    · simp only [if_true]
      field_simp
      ring
  · rw [hit]
    simp
  · rw [hit]
    simp

/-- Witness for `c3_skip_vs_iterated_settle` at a concrete meter. -/
theorem c3_skip_vs_iterated_settle_witness :
    ({ running := true, started := 0, halflife := 3, value := 1,
       nextHalvening := 7, lastUpdated := 4 } : IntervalMeter).skipStep 2 =
      IntervalMeter.settleStep^[2]
        { ({ running := true, started := 0, halflife := 3, value := 1,
             nextHalvening := 7, lastUpdated := 4 } : IntervalMeter) with
          value := ({ running := true, started := 0, halflife := 3, value := 1,
                      nextHalvening := 7, lastUpdated := 4 } : IntervalMeter).value / 2 } ∧
    (({ running := true, started := 0, halflife := 3, value := 1,
        nextHalvening := 7, lastUpdated := 4 } : IntervalMeter).skipStep 2).lastUpdated =
      (IntervalMeter.settleStep^[2]
        ({ running := true, started := 0, halflife := 3, value := 1,
           nextHalvening := 7, lastUpdated := 4 } : IntervalMeter)).lastUpdated ∧
    (({ running := true, started := 0, halflife := 3, value := 1,
        nextHalvening := 7, lastUpdated := 4 } : IntervalMeter).skipStep 2).nextHalvening =
      (IntervalMeter.settleStep^[2]
        ({ running := true, started := 0, halflife := 3, value := 1,
           nextHalvening := 7, lastUpdated := 4 } : IntervalMeter)).nextHalvening :=
  c3_skip_vs_iterated_settle
    { running := true, started := 0, halflife := 3, value := 1,
      nextHalvening := 7, lastUpdated := 4 } 2 (by decide) (by decide)

/-! ## Claim C8 — Network shutdown completeness

The Network and Peer implementations themselves are not part of this
repository excerpt (only the test `TestPeer_Close` in
`src/network/peer_test.go` is), so the shutdown contract is modelled from
the specification. -/

/-- Peer lifecycle states (spec §4.3):
`Connecting → Handshaking → Connected → Closing → Closed`. -/
inductive PeerState where
  | Connecting
  | Handshaking
  | Connected
  | Closing
  | Closed
  deriving Repr, DecidableEq

/-- A registered peer: its identifier and lifecycle state. -/
structure Peer where
  pid : Nat
  state : PeerState
  deriving Repr, DecidableEq

/-- The Network registry: the set of registered peers and the listener. -/
structure Network where
  peers : List Peer
  listenerOpen : Bool
  deriving Repr, DecidableEq

/-- Modelled from the spec: the `Network`/`Peer` implementation is absent
from the excerpt.  Spec §4.6: on `Close()` the Network "transitions every
registered Peer to `Closing`".  -/
def signalClose (p : Peer) : Peer :=
  { p with state := PeerState.Closing }

/-- Modelled from the spec: the `Network`/`Peer` implementation is absent
from the excerpt.  Spec §4.3: a `Closing` peer reaches the terminal state
`Closed` "once both the reader and writer loops have exited and the
underlying connection is released"; `Network.Close()` "blocks until all have
reached `Closed`". -/
def awaitClosed (p : Peer) : Peer :=
  if p.state = PeerState.Closing then { p with state := PeerState.Closed } else p

/-- Modelled from the spec: the `Network`/`Peer` implementation is absent
from the excerpt.  Spec §4.6: `Network.Close()` transitions every registered
peer to `Closing`, blocks until every one of them has reached `Closed`, and
only then releases the listener. -/
def closeNetwork (n : Network) : Network :=
  { peers := (n.peers.map signalClose).map awaitClosed
    listenerOpen := false }

/-- C8: after `closeNetwork` returns, every peer that was registered with
the Network is in state `Closed` (and the listener is released), so no
connection outlives the Network's shutdown. -/
theorem c8_network_close_completeness (n : Network) (p : Peer)
    (hp : p ∈ (closeNetwork n).peers) :
    p.state = PeerState.Closed ∧ (closeNetwork n).listenerOpen = false := by
  refine ⟨?_, rfl⟩
  simp only [closeNetwork, List.mem_map] at hp
  obtain ⟨q, ⟨a, _, rfl⟩, rfl⟩ := hp
  simp [awaitClosed, signalClose]

/-- Witness for `c8_network_close_completeness` on a concrete network. -/
theorem c8_network_close_completeness_witness :
    ({ pid := 1, state := PeerState.Closed } : Peer).state = PeerState.Closed ∧
    (closeNetwork { peers := [{ pid := 1, state := PeerState.Connected }],
                    listenerOpen := true }).listenerOpen = false :=
  c8_network_close_completeness
    { peers := [{ pid := 1, state := PeerState.Connected }], listenerOpen := true }
    { pid := 1, state := PeerState.Closed } (by decide)
